import Mathlib

/-!
Shallow embedding of the client-side fast path of iprw/shadowtun:
the warm connection pool (cmd/shadowtls/pool.go), the statistics
collector (cmd/shadowtls/stats.go), and the per-flow client logic
(tunnel acquisition, relay, flow supervision) of the client source file.

Machine integers are modelled as Nat (all counters and byte counts in the
source are non-negative and far from overflow in the scenarios considered);
fallible operations return Except/Option; concurrency is resolved by
passing the outcomes of I/O operations and the scheduler's choices as
explicit parameters.
-/

namespace ShadowTun

/-- Constant copyBufSize = 32 * 1024 from the client source. -/
def copyBufSize : Nat := 32 * 1024

/-- Constant maxRetries = 3 from the client source. -/
def maxRetries : Nat := 3

/-! ## ConnPool.Get (cmd/shadowtls/pool.go, lines 165-212)

A pooled connection is modelled as a pair (age, id): `age` is the value of
time.Since(pc.createdAt) observed when Get polls it from the channel, `id`
identifies the underlying net.Conn.  The ready channel is the list `queue`
in FIFO order.  `ctxDone` says whether the caller's context is cancelled;
when both the channel receive and ctx.Done() are ready, Go's select picks
one of the ready cases nondeterministically: the list `sched` resolves this
choice (head true or missing = receive case, false = ctx case).  The
`default` branch of the select runs only when no other case is ready, i.e.
when the queue is empty and the context is alive; there the factory is
called synchronously, its outcome supplied as `factory`. -/

inductive GetOutcome where
  | ok (fromPool : Bool) (poolAge : Nat) (conn : Nat)
  | ctxErr
  | factoryErr
deriving DecidableEq

structure GetTrace where
  outcome : GetOutcome
  hitsDelta : Nat
  missesDelta : Nat
  expiredDelta : Nat
  closed : List (Nat × Nat)
deriving DecidableEq

/-- ConnPool.Get: poll the queue, discarding expired connections
(PoolExpired, Close) until a fresh one is found (PoolHits, FromPool=true);
on empty queue with live context, PoolMisses then factory; ctx.Done yields
ctx.Err().  Note the source never consults the pool's stopped flag or the
pool context here — only the caller's ctx. -/
def connPoolGet (ttl : Nat) (ctxDone : Bool) (sched : List Bool)
    (queue : List (Nat × Nat)) (factory : Except Unit Nat) : GetTrace :=
  match queue with
  | [] =>
    if ctxDone then ⟨.ctxErr, 0, 0, 0, []⟩
    else
      match factory with
      | .ok c => ⟨.ok false 0 c, 0, 1, 0, []⟩
      | .error _ => ⟨.factoryErr, 0, 1, 0, []⟩
  | (age, c) :: rest =>
    if ctxDone && !(sched.headD true) then ⟨.ctxErr, 0, 0, 0, []⟩
    else if age ≤ ttl then ⟨.ok true age c, 1, 0, 0, []⟩
    else
      let r := connPoolGet ttl ctxDone sched.tail rest factory
      ⟨r.outcome, r.hitsDelta, r.missesDelta, r.expiredDelta + 1, (age, c) :: r.closed⟩

/-! ## ConnPool.Stop (cmd/shadowtls/pool.go, lines 57-87) -/

structure PoolCtl where
  stopped : Bool
  queue : List (Nat × Nat)
deriving DecidableEq

structure StopTrace where
  state : PoolCtl
  closed : List (Nat × Nat)
deriving DecidableEq

/-- ConnPool.Stop: set the stopped flag, cancel the pool context, wait for
workers, then drain the ready channel, closing every remaining pooled
connection.  The resulting queue is empty. -/
def poolStop (p : PoolCtl) : StopTrace :=
  ⟨⟨true, []⟩, p.queue⟩

/-! ## acquireTunnel (client source, lines 212-256)

A connection handed out by pool.Get is modelled by its behaviour under the
verification round-trip: `writeOk` is whether tunnel.Write(initialData)
succeeds (a nil-error net.Conn Write is a full write), and `resp` is the
data the tunnel offers to the verification read — none models a read error
(including the verify-timeout), some bs a successful read, which returns
the first min(|bs|, copyBufSize) bytes since respBuf has copyBufSize
bytes.  The outcomes of the successive pool.Get calls are supplied by
`gets`, indexed by attempt number. -/

structure ConnModel where
  id : Nat
  writeOk : Bool
  resp : Option (List Nat)
deriving DecidableEq

inductive AttemptRes where
  | stale
  | verified (firstResponse : List Nat)
deriving DecidableEq

/-- Record of one verification attempt: its result, plus the successful
writes and the successful reads performed on the borrowed connection
(each list element is the byte sequence of one Write or one Read). -/
structure VerifyTrace where
  res : AttemptRes
  writes : List (List Nat)
  reads : List (List Nat)
deriving DecidableEq

/-- One verification attempt (client source, lines 236-252): write
initialData — on error the tunnel is stale; read into respBuf — on error
or a zero-length read the tunnel is stale; otherwise respBuf[:n] is the
first response.  The Read fills at most copyBufSize bytes since respBuf
has that capacity. -/
def verifyAttempt (initialData : List Nat) (c : ConnModel) : VerifyTrace :=
  if !c.writeOk then ⟨.stale, [], []⟩
  else
    match c.resp with
    | none => ⟨.stale, [initialData], []⟩
    | some bs =>
      if (bs.take copyBufSize).length = 0 then ⟨.stale, [initialData], [bs.take copyBufSize]⟩
      else ⟨.verified (bs.take copyBufSize), [initialData], [bs.take copyBufSize]⟩

inductive AcqOutcome where
  | ok (conn : ConnModel) (firstResponse : List Nat)
  | getErr
  | allStale
deriving DecidableEq

structure AcqTrace where
  outcome : AcqOutcome
  staleDelta : Nat
  closed : List Nat
deriving DecidableEq

/-- Loop body of acquireTunnel: `remaining` counts the attempts left out of
maxRetries, `attempt` the current index into `gets`.  A Get error is
returned as-is; a stale verification bumps PoolStale, closes the tunnel
and retries; exhausting all attempts yields the "all connections stale"
error. -/
def acquireGo (initialData : List Nat) (gets : Nat → Except Unit ConnModel)
    (attempt : Nat) : Nat → AcqTrace
  | 0 => ⟨.allStale, 0, []⟩
  | remaining + 1 =>
    match gets attempt with
    | .error _ => ⟨.getErr, 0, []⟩
    | .ok c =>
      match (verifyAttempt initialData c).res with
      | .verified fr => ⟨.ok c fr, 0, []⟩
      | .stale =>
        let r := acquireGo initialData gets (attempt + 1) remaining
        ⟨r.outcome, r.staleDelta + 1, c.id :: r.closed⟩

/-- acquireTunnel: up to maxRetries attempts, each borrowing one connection
from the pool (outcome supplied by `gets`, indexed by attempt) and
verifying it with a write + read round-trip of the initial data. -/
def acquireTunnel (initialData : List Nat)
    (gets : Nat → Except Unit ConnModel) : AcqTrace :=
  acquireGo initialData gets 0 maxRetries

/-! ## copyConn (client source, lines 293-314)

A one-way copy is driven by the sequence of results of src.Read: each
`RWEvent` is one loop iteration, carrying the bytes the Read returned,
whether the Read also returned an error, and the outcome of the
dst.Write of those bytes (`WriteRes.ok` is a full write; `WriteRes.err k`
a write that transferred k bytes and then failed).  An exhausted event
list models io.EOF (a read error with n = 0). -/

inductive WriteRes where
  | ok
  | err (written : Nat)
deriving DecidableEq

structure RWEvent where
  data : List Nat
  rErr : Bool
  w : WriteRes
deriving DecidableEq

structure CopyRes where
  total : Nat
  written : List Nat
  statBytes : Nat
deriving DecidableEq

/-- copyConn: loop { read; if n > 0 { write; on written > 0 add to total
and stats.AddBytes; on write error return }; on read error return }.
`total` is the returned count, `written` the bytes delivered to dst in
order, `statBytes` the sum of all stats.AddBytes arguments. -/
def copyConn : List RWEvent → CopyRes
  | [] => ⟨0, [], 0⟩
  | e :: rest =>
    if 0 < e.data.length then
      match e.w with
      | .ok =>
        if e.rErr then ⟨e.data.length, e.data, e.data.length⟩
        else
          let r := copyConn rest
          ⟨e.data.length + r.total, e.data ++ r.written, e.data.length + r.statBytes⟩
      | .err k =>
        ⟨min k e.data.length, e.data.take k, min k e.data.length⟩
    else
      if e.rErr then ⟨0, [], 0⟩ else copyConn rest

/-! ## handleConnection (client source, lines 156-205)

The flow supervisor: read initial bytes from the local client (outcome
`initRead`: none = read error, some bs = a read of bs; the source treats
an error or n = 0 alike), acquire a verified tunnel, forward the first
response to the local client (outcome `forwardOk`), then relay in both
directions.  The relay's two copyConn halves are driven by their event
streams `outEvents` (local to tunnel) and `inEvents` (tunnel to local);
the cooperative cross-close of relay surfaces in those streams as read
errors or exhaustion.  The trace records the deltas this flow applies to
the ConnErrors and TotalBytes counters: in the source, stats.AddBytes is
called only inside copyConn — neither the verification write in
acquireTunnel nor the first-response forward write touches TotalBytes —
and stats.ConnErrors is bumped only on the three pre-relay failure
paths. -/

inductive FlowExit where
  | initReadErr
  | acquireErr
  | forwardErr
  | relayed (bytesOut bytesIn : Nat)
deriving DecidableEq

structure FlowRes where
  exit : FlowExit
  connErrorsDelta : Nat
  totalBytesDelta : Nat
  totalConnsDelta : Nat
deriving DecidableEq

def handleConnection (initRead : Option (List Nat))
    (gets : Nat → Except Unit ConnModel) (forwardOk : Bool)
    (outEvents inEvents : List RWEvent) : FlowRes :=
  match initRead with
  | none => ⟨.initReadErr, 1, 0, 1⟩
  | some bs =>
    if bs.length = 0 then ⟨.initReadErr, 1, 0, 1⟩
    else
      match (acquireTunnel bs gets).outcome with
      | .getErr => ⟨.acquireErr, 1, 0, 1⟩
      | .allStale => ⟨.acquireErr, 1, 0, 1⟩
      | .ok _ _ =>
        if !forwardOk then ⟨.forwardErr, 1, 0, 1⟩
        else
          let rOut := copyConn outEvents
          let rIn := copyConn inEvents
          ⟨.relayed rOut.total rIn.total, 0, rOut.statBytes + rIn.statBytes, 1⟩

/-! ## Stats.Snapshot derived fields (cmd/shadowtls/stats.go, lines 177-226)

Durations are nanosecond counts; every recorded sample is non-negative, so
the int64 sums and Go's truncating int64 division coincide with Nat and
Nat division.  The hit rate is computed in the source as
float64(hits) / float64(hits+misses) * 100; it is modelled exactly in ℚ —
the factor 100 is independent of any float rounding. -/

structure StatsState where
  poolHits : Nat
  poolMisses : Nat
  poolWaitTime : Nat
  poolWaitCount : Nat
  connectTimeTotal : Nat
  connectTimeCount : Nat
  connLifetimeTotal : Nat
  connLifetimeCount : Nat
  poolAgeTotal : Nat
  poolAgeCount : Nat
deriving DecidableEq

structure SnapModel where
  poolHitRate : ℚ
  poolAvgWait : Nat
  avgConnectTime : Nat
  avgConnLifetime : Nat
  avgPoolAge : Nat
deriving DecidableEq

/-- Stats.Snapshot, restricted to its derived fields: the hit rate and the
four histogram averages, each left at its zero value when the
corresponding count is zero. -/
def snapshot (s : StatsState) : SnapModel :=
  ⟨if 0 < s.poolHits + s.poolMisses then
      (s.poolHits : ℚ) / ((s.poolHits : ℚ) + (s.poolMisses : ℚ)) * 100
    else 0,
   if 0 < s.poolWaitCount then s.poolWaitTime / s.poolWaitCount else 0,
   if 0 < s.connectTimeCount then s.connectTimeTotal / s.connectTimeCount else 0,
   if 0 < s.connLifetimeCount then s.connLifetimeTotal / s.connLifetimeCount else 0,
   if 0 < s.poolAgeCount then s.poolAgeTotal / s.poolAgeCount else 0⟩

/-! ## Pool counter state machine (cmd/shadowtls/pool.go)

Global-state view of the pool counters, for the cross-counter invariants.
Each transition is one counter-visible step of a worker (lines 95-152), of
Get (lines 165-212) or of Stop's drain (lines 73-86).  `queueLen` is the
number of connections in the ready channel.  `getSuccesses` and
`getFactoryFailures` are ghost observers, not present in the source: they
count the Get calls that returned a connection and the Get calls whose
miss-path factory invocation failed. -/

structure PoolSt where
  created : Nat
  expired : Nat
  failed : Nat
  discarded : Nat
  hits : Nat
  misses : Nat
  queueLen : Nat
  getSuccesses : Nat
  getFactoryFailures : Nat
deriving DecidableEq

def PoolInit : PoolSt := ⟨0, 0, 0, 0, 0, 0, 0, 0, 0⟩

inductive PoolStep : PoolSt → PoolSt → Prop
  /-- Worker: factory success, PoolCreated++, connection enqueued. -/
  | workerEnqueue (s : PoolSt) :
      PoolStep s { s with created := s.created + 1, queueLen := s.queueLen + 1 }
  /-- Worker: factory success, PoolCreated++, channel full for ttl,
  PoolDiscarded++, connection closed. -/
  | workerDiscard (s : PoolSt) :
      PoolStep s { s with created := s.created + 1, discarded := s.discarded + 1 }
  /-- Worker: factory success, PoolCreated++, pool context cancelled during
  the enqueue wait, connection closed, worker exits. -/
  | workerCtxClose (s : PoolSt) :
      PoolStep s { s with created := s.created + 1 }
  /-- Worker: factory failure, PoolFailed++. -/
  | workerFail (s : PoolSt) :
      PoolStep s { s with failed := s.failed + 1 }
  /-- Get: polled connection within ttl, PoolHits++, returned to caller. -/
  | getHit (s : PoolSt) (h : 0 < s.queueLen) :
      PoolStep s { s with queueLen := s.queueLen - 1, hits := s.hits + 1,
                          getSuccesses := s.getSuccesses + 1 }
  /-- Get: polled connection past ttl, PoolExpired++, closed. -/
  | getExpired (s : PoolSt) (h : 0 < s.queueLen) :
      PoolStep s { s with queueLen := s.queueLen - 1, expired := s.expired + 1 }
  /-- Get: empty queue, PoolMisses++, synchronous factory success. -/
  | getMissOk (s : PoolSt) :
      PoolStep s { s with misses := s.misses + 1, getSuccesses := s.getSuccesses + 1 }
  /-- Get: empty queue, PoolMisses++, synchronous factory failure. -/
  | getMissFail (s : PoolSt) :
      PoolStep s { s with misses := s.misses + 1,
                          getFactoryFailures := s.getFactoryFailures + 1 }
  /-- Stop: drain loop removes and closes one pooled connection. -/
  | stopDrain (s : PoolSt) (h : 0 < s.queueLen) :
      PoolStep s { s with queueLen := s.queueLen - 1 }

inductive Reachable : PoolSt → Prop
  | init : Reachable PoolInit
  | step {s t : PoolSt} : Reachable s → PoolStep s t → Reachable t

/-! ## Theorems -/

/-- Strengthened pool-production invariant: worker-created connections
dominate their consumptions plus the connections still sitting in the
ready queue. -/
theorem created_invariant_aux {s : PoolSt} (h : Reachable s) :
    s.hits + s.expired + s.discarded + s.queueLen ≤ s.created := by
  induction h with
  | init => simp [PoolInit]
  | step hr hs ih => cases hs <;> dsimp <;> omega

/-- Claim C10: in every reachable state of the pool,
pool_created ≥ pool_hits + pool_expired + pool_discarded — only worker
connections increment pool_created and each is consumed at most once as a
hit, an expiry or a discard; on-demand miss connections never touch
pool_created. -/
theorem created_dominates_consumption {s : PoolSt} (h : Reachable s) :
    s.hits + s.expired + s.discarded ≤ s.created := by
  have := created_invariant_aux h
  omega

/-- Witness for C10: the state after one worker enqueue and one expired
checkout is reachable and satisfies the inequality. -/
theorem created_dominates_consumption_witness :
    (⟨1, 1, 0, 0, 0, 0, 0, 0, 0⟩ : PoolSt).hits
        + (⟨1, 1, 0, 0, 0, 0, 0, 0, 0⟩ : PoolSt).expired
        + (⟨1, 1, 0, 0, 0, 0, 0, 0, 0⟩ : PoolSt).discarded
      ≤ (⟨1, 1, 0, 0, 0, 0, 0, 0, 0⟩ : PoolSt).created :=
  created_dominates_consumption
    (Reachable.step (Reachable.step Reachable.init (PoolStep.workerEnqueue PoolInit))
      (PoolStep.getExpired ⟨1, 0, 0, 0, 0, 0, 1, 0, 0⟩ (by decide)))

/-- Claim C7: a connection returned by ConnPool.Get with from_pool = true
has pool age at most ttl at the moment of borrow; every connection closed
during the Get had age strictly above ttl, the PoolExpired delta counts
exactly those closures, and the returned connection is not among the
closed ones. -/
theorem get_fromPool_within_ttl (ttl : Nat) (ctxDone : Bool)
    (factory : Except Unit Nat) :
    ∀ (queue : List (Nat × Nat)) (sched : List Bool) (age c : Nat),
      (connPoolGet ttl ctxDone sched queue factory).outcome = .ok true age c →
      age ≤ ttl ∧
      (∀ q ∈ (connPoolGet ttl ctxDone sched queue factory).closed, ttl < q.1) ∧
      (connPoolGet ttl ctxDone sched queue factory).expiredDelta
        = (connPoolGet ttl ctxDone sched queue factory).closed.length ∧
      (age, c) ∉ (connPoolGet ttl ctxDone sched queue factory).closed := by
  intro queue
  induction queue with
  | nil =>
    intro sched age c h
    cases hcd : ctxDone <;> cases factory <;> simp [connPoolGet, hcd] at h
  | cons head tl ih =>
    intro sched age c h
    obtain ⟨a0, c0⟩ := head
    by_cases hsel : (ctxDone && !(sched.headD true)) = true
    · simp only [connPoolGet, if_pos hsel] at h
      exact absurd h (by simp)
    · by_cases hage : a0 ≤ ttl
      · simp only [connPoolGet, if_neg hsel, if_pos hage] at h ⊢
        simp at h ⊢
        obtain ⟨rfl, rfl⟩ := h
        exact hage
      · simp only [connPoolGet, if_neg hsel, if_neg hage] at h ⊢
        obtain ⟨h1, h2, h3, h4⟩ := ih sched.tail age c h
        refine ⟨h1, ?_, ?_, ?_⟩
        · intro q hq
          rcases List.mem_cons.mp hq with hq | hq
          · subst hq; exact Nat.lt_of_not_le hage
          · exact h2 q hq
        · simp [h3]
        · intro hmem
          rcases List.mem_cons.mp hmem with hmem | hmem
          · have ha : age = a0 := congrArg Prod.fst hmem
            omega
          · exact h4 hmem

/-- Witness for C7: a Get over a queue holding one expired and one fresh
connection returns the fresh one; the expired one is closed and counted. -/
theorem get_fromPool_within_ttl_witness :
    3 ≤ 10 ∧
    (∀ q ∈ (connPoolGet 10 false [] [(20, 9), (3, 4)] (.ok 7)).closed, 10 < q.1) ∧
    (connPoolGet 10 false [] [(20, 9), (3, 4)] (.ok 7)).expiredDelta
      = (connPoolGet 10 false [] [(20, 9), (3, 4)] (.ok 7)).closed.length ∧
    (3, 4) ∉ (connPoolGet 10 false [] [(20, 9), (3, 4)] (.ok 7)).closed :=
  get_fromPool_within_ttl 10 false (.ok 7) [(20, 9), (3, 4)] [] 3 4 (by decide)

/-- Helper: a successful acquireGo outcome came from a verified
round-trip on the returned connection. -/
theorem acquireGo_ok_verify (initialData : List Nat)
    (gets : Nat → Except Unit ConnModel) :
    ∀ (remaining attempt : Nat) (c : ConnModel) (fr : List Nat),
      (acquireGo initialData gets attempt remaining).outcome = .ok c fr →
      (verifyAttempt initialData c).res = .verified fr := by
  intro remaining
  induction remaining with
  | zero => intro attempt c fr h; simp [acquireGo] at h
  | succ n ih =>
    intro attempt c fr h
    simp only [acquireGo] at h
    cases hg : gets attempt with
    | error e => simp only [hg] at h; simp at h
    | ok c0 =>
      simp only [hg] at h
      cases hv : (verifyAttempt initialData c0).res with
      | stale =>
        simp only [hv] at h
        exact ih (attempt + 1) c fr h
      | verified fr0 =>
        simp only [hv] at h
        simp at h
        obtain ⟨rfl, rfl⟩ := h
        exact hv

/-- Claim C2: whenever acquireTunnel returns successfully, the returned
connection has undergone exactly one successful write — of exactly the
initial data — and exactly one successful non-empty read, whose bytes
(between 1 and copyBufSize = 32 KiB long) are returned verbatim as the
first-response bytes. -/
theorem acquireTunnel_verified_roundtrip (initialData : List Nat)
    (gets : Nat → Except Unit ConnModel) (c : ConnModel) (fr : List Nat)
    (hinit : initialData ≠ [])
    (h : (acquireTunnel initialData gets).outcome = .ok c fr) :
    (verifyAttempt initialData c).writes = [initialData] ∧
    (verifyAttempt initialData c).reads = [fr] ∧
    1 ≤ fr.length ∧ fr.length ≤ copyBufSize := by
  have hv := acquireGo_ok_verify initialData gets maxRetries 0 c fr h
  unfold verifyAttempt at hv ⊢
  cases hwb : c.writeOk with
  | false => simp [hwb] at hv
  | true =>
    cases hr : c.resp with
    | none => simp [hwb, hr] at hv
    | some bs =>
      by_cases hz : (bs.take copyBufSize).length = 0
      · simp [hwb, hr, hz] at hv
      · simp only [hwb, hr, hz, Bool.not_true, Bool.false_eq_true, if_false,
          if_neg hz] at hv ⊢
        simp only [AttemptRes.verified.injEq] at hv
        subst hv
        refine ⟨trivial, rfl, by omega, ?_⟩
        rw [List.length_take]
        exact min_le_left _ _

/-- Witness for C2: an acquire against a live echo-like connection. -/
theorem acquireTunnel_verified_roundtrip_witness :
    (verifyAttempt [1] ⟨5, true, some [9, 9]⟩).writes = [[1]] ∧
    (verifyAttempt [1] ⟨5, true, some [9, 9]⟩).reads = [[9, 9]] ∧
    1 ≤ ([9, 9] : List Nat).length ∧ ([9, 9] : List Nat).length ≤ copyBufSize :=
  acquireTunnel_verified_roundtrip [1] (fun _ => .ok ⟨5, true, some [9, 9]⟩)
    ⟨5, true, some [9, 9]⟩ [9, 9] (by decide) (by decide)

/-- Helper: when the first `remaining` attempts starting at `attempt` all
borrow a connection that fails verification, acquireGo exhausts them,
counts one PoolStale per attempt and closes each borrowed connection. -/
theorem acquireGo_all_stale (initialData : List Nat)
    (gets : Nat → Except Unit ConnModel) (cs : Nat → ConnModel) :
    ∀ (remaining attempt : Nat),
      (∀ k, k < remaining → gets (attempt + k) = .ok (cs (attempt + k))) →
      (∀ k, k < remaining →
          (verifyAttempt initialData (cs (attempt + k))).res = .stale) →
      acquireGo initialData gets attempt remaining
        = ⟨.allStale, remaining,
           (List.range remaining).map (fun k => (cs (attempt + k)).id)⟩ := by
  intro remaining
  induction remaining with
  | zero => intro attempt _ _; simp [acquireGo]
  | succ n ih =>
    intro attempt hok hstale
    have h0 : gets attempt = .ok (cs attempt) := by
      simpa using hok 0 (Nat.succ_pos n)
    have s0 : (verifyAttempt initialData (cs attempt)).res = .stale := by
      simpa using hstale 0 (Nat.succ_pos n)
    have hrec := ih (attempt + 1)
      (fun k hk => by
        have := hok (k + 1) (Nat.succ_lt_succ hk)
        rwa [show attempt + (k + 1) = attempt + 1 + k by omega] at this)
      (fun k hk => by
        have := hstale (k + 1) (Nat.succ_lt_succ hk)
        rwa [show attempt + (k + 1) = attempt + 1 + k by omega] at this)
    simp only [acquireGo, h0, s0, hrec]
    simp only [AcqTrace.mk.injEq]
    refine ⟨trivial, trivial, ?_⟩
    have hmap : (List.range n).map (fun k => (cs (attempt + 1 + k)).id)
        = (List.range n).map ((fun k => (cs (attempt + k)).id) ∘ Nat.succ) := by
      apply List.map_congr_left
      intro k _
      simp only [Function.comp_apply]
      congr 2
      omega
    rw [List.range_succ_eq_map, List.map_cons, List.map_map, ← hmap]
    simp

/-- Claim C8: when pool.Get succeeds on every one of the maxRetries = 3
attempts but every verification fails, acquireTunnel returns the "all
connections stale" error, PoolStale has been incremented exactly
maxRetries times, and each attempt's connection has been closed. -/
theorem acquire_all_stale (initialData : List Nat)
    (gets : Nat → Except Unit ConnModel) (cs : Nat → ConnModel)
    (hok : ∀ k, k < maxRetries → gets k = .ok (cs k))
    (hstale : ∀ k, k < maxRetries →
        (verifyAttempt initialData (cs k)).res = .stale) :
    (acquireTunnel initialData gets).outcome = .allStale ∧
    (acquireTunnel initialData gets).staleDelta = maxRetries ∧
    (acquireTunnel initialData gets).closed = [(cs 0).id, (cs 1).id, (cs 2).id] := by
  have h := acquireGo_all_stale initialData gets cs maxRetries 0
    (fun k hk => by simpa using hok k hk)
    (fun k hk => by simpa using hstale k hk)
  simp only [acquireTunnel, h]
  refine ⟨trivial, trivial, ?_⟩
  simp [maxRetries, List.range_succ]

/-- Witness for C8: a factory whose connections all reject the
verification write. -/
theorem acquire_all_stale_witness :
    (acquireTunnel [1] (fun k => .ok ⟨k, false, none⟩)).outcome = .allStale ∧
    (acquireTunnel [1] (fun k => .ok ⟨k, false, none⟩)).staleDelta = maxRetries ∧
    (acquireTunnel [1] (fun k => .ok ⟨k, false, none⟩)).closed
      = [(⟨0, false, none⟩ : ConnModel).id, (⟨1, false, none⟩ : ConnModel).id,
         (⟨2, false, none⟩ : ConnModel).id] :=
  acquire_all_stale [1] (fun k => .ok ⟨k, false, none⟩) (fun k => ⟨k, false, none⟩)
    (fun _ _ => rfl) (fun _ _ => rfl)

/-- Claim C4 is false on the code: ConnPool.Get increments PoolMisses
before calling the factory, so a Get whose synchronous factory call fails
still counts as a miss.  The state with one such failed Get is reachable,
has pool_hits + pool_misses = 1, yet no acquisition ever returned a
connection. -/
theorem hits_misses_overcount :
    Reachable ⟨0, 0, 0, 0, 0, 1, 0, 0, 1⟩ ∧
    ¬ ((⟨0, 0, 0, 0, 0, 1, 0, 0, 1⟩ : PoolSt).hits
          + (⟨0, 0, 0, 0, 0, 1, 0, 0, 1⟩ : PoolSt).misses
        = (⟨0, 0, 0, 0, 0, 1, 0, 0, 1⟩ : PoolSt).getSuccesses) :=
  ⟨Reachable.step Reachable.init (PoolStep.getMissFail PoolInit), by decide⟩

/-- Claim C4 amended: in every reachable state, pool_hits + pool_misses
equals the number of Get calls that returned a connection plus the number
of Get calls whose miss-path factory invocation failed (equality with the
successful acquisitions alone holds only when no such factory failure
occurred). -/
theorem hits_misses_accounting {s : PoolSt} (h : Reachable s) :
    s.hits + s.misses = s.getSuccesses + s.getFactoryFailures := by
  induction h with
  | init => rfl
  | step hr hs ih => cases hs <;> dsimp <;> omega

/-- Helper: copyConn on a stream whose writes all succeed and whose reads
never error delivers exactly the concatenation of the read chunks. -/
theorem copyConn_ok_spec :
    ∀ (events : List RWEvent),
      (∀ e ∈ events, e.w = .ok) → (∀ e ∈ events, e.rErr = false) →
      copyConn events =
        ⟨((events.map RWEvent.data).flatten).length,
         (events.map RWEvent.data).flatten,
         ((events.map RWEvent.data).flatten).length⟩ := by
  intro events
  induction events with
  | nil => intro _ _; simp [copyConn]
  | cons e rest ih =>
    intro hw hr
    have hwe : e.w = .ok := hw e (List.mem_cons_self e rest)
    have hre : e.rErr = false := hr e (List.mem_cons_self e rest)
    have ih2 := ih (fun x hx => hw x (List.mem_cons_of_mem e hx))
                   (fun x hx => hr x (List.mem_cons_of_mem e hx))
    by_cases hd : 0 < e.data.length
    · simp [copyConn, hd, hwe, hre, ih2]
    · have hde : e.data = [] :=
        List.length_eq_zero.mp (Nat.eq_zero_of_not_pos hd)
      simp [copyConn, hd, hre, ih2, hde]

/-- Claim C9: for every finite byte sequence X delivered by the source in
chunks of at most copyBufSize = 32 KiB, the one-way copy writes exactly
the bytes of X to the destination in order — no reordering, duplication
or loss — and returns |X| as its byte count (and adds |X| to the
TotalBytes counter) when all writes succeed. -/
theorem copyConn_exact_copy (X : List Nat) (events : List RWEvent)
    (hX : (events.map RWEvent.data).flatten = X)
    (hw : ∀ e ∈ events, e.w = .ok)
    (hr : ∀ e ∈ events, e.rErr = false)
    (hsz : ∀ e ∈ events, e.data.length ≤ copyBufSize) :
    (copyConn events).written = X ∧
    (copyConn events).total = X.length ∧
    (copyConn events).statBytes = X.length := by
  subst hX
  rw [copyConn_ok_spec events hw hr]
  exact ⟨rfl, rfl, rfl⟩

/-- Witness for C9: a two-chunk stream is copied verbatim. -/
theorem copyConn_exact_copy_witness :
    (copyConn [⟨[1, 2], false, .ok⟩, ⟨[3], false, .ok⟩]).written = [1, 2, 3] ∧
    (copyConn [⟨[1, 2], false, .ok⟩, ⟨[3], false, .ok⟩]).total
      = ([1, 2, 3] : List Nat).length ∧
    (copyConn [⟨[1, 2], false, .ok⟩, ⟨[3], false, .ok⟩]).statBytes
      = ([1, 2, 3] : List Nat).length :=
  copyConn_exact_copy [1, 2, 3] [⟨[1, 2], false, .ok⟩, ⟨[3], false, .ok⟩]
    (by decide) (by decide) (by decide) (by decide)

/-- Claim C3 is false on the code: in a full echo flow with initial bytes
[1] (echoed by the tunnel as the first response) and X = [2] relayed and
echoed in each direction, the TotalBytes counter advances by 2 = |X| + |X|
— stats.AddBytes is called only inside copyConn — not by
bytes_out + bytes_in = (|X| + len(initial)) + (|X| + len(initial)) = 4 as
the claim states: the verification write and the forwarded first response
are not included in the counter. -/
theorem flow_totalBytes_counterexample :
    (handleConnection (some [1]) (fun _ => .ok ⟨0, true, some [1]⟩) true
        [⟨[2], false, .ok⟩] [⟨[2], false, .ok⟩]).totalBytesDelta = 2 ∧
    (handleConnection (some [1]) (fun _ => .ok ⟨0, true, some [1]⟩) true
        [⟨[2], false, .ok⟩] [⟨[2], false, .ok⟩]).totalBytesDelta
      ≠ (1 + 1) + (1 + 1) := by
  decide

/-- Claim C3 amended: in a successful flow the TotalBytes counter advances
by exactly the bytes moved by the two relay halves — |X| out plus |X| in
for the echo flow — excluding the verification write of the initial bytes
and the forwarded first response, which never touch the counter. -/
theorem flow_totalBytes_relay_only (init : List Nat)
    (gets : Nat → Except Unit ConnModel) (outEvents inEvents : List RWEvent)
    (c : ConnModel) (fr : List Nat)
    (hinit : init ≠ [])
    (hacq : (acquireTunnel init gets).outcome = .ok c fr)
    (how : ∀ e ∈ outEvents, e.w = .ok) (hor : ∀ e ∈ outEvents, e.rErr = false)
    (hiw : ∀ e ∈ inEvents, e.w = .ok) (hir : ∀ e ∈ inEvents, e.rErr = false) :
    (handleConnection (some init) gets true outEvents inEvents).totalBytesDelta
      = ((outEvents.map RWEvent.data).flatten).length
        + ((inEvents.map RWEvent.data).flatten).length := by
  have hlen : ¬ (init.length = 0) := by
    simpa [List.length_eq_zero] using hinit
  simp [handleConnection, hlen, hacq, copyConn_ok_spec outEvents how hor,
    copyConn_ok_spec inEvents hiw hir]

/-- Witness for the amended C3 at the concrete echo flow. -/
theorem flow_totalBytes_relay_only_witness :
    (handleConnection (some [1]) (fun _ => .ok ⟨0, true, some [1]⟩) true
        [⟨[2], false, .ok⟩] [⟨[2], false, .ok⟩]).totalBytesDelta
      = ((([⟨[2], false, .ok⟩] : List RWEvent).map RWEvent.data).flatten).length
        + ((([⟨[2], false, .ok⟩] : List RWEvent).map RWEvent.data).flatten).length :=
  flow_totalBytes_relay_only [1] (fun _ => .ok ⟨0, true, some [1]⟩)
    [⟨[2], false, .ok⟩] [⟨[2], false, .ok⟩] ⟨0, true, some [1]⟩ [1]
    (by decide) (by decide) (by decide) (by decide) (by decide) (by decide)

/-- Claim C6 is false on the code: a relay I/O failure does not increment
the ConnErrors counter.  In a flow whose initial read, tunnel acquisition
and first-response forward all succeed, the local-to-tunnel relay half
suffers a write error on its first chunk, yet the flow's ConnErrors delta
is 0 — only the three pre-relay failure paths bump the counter. -/
theorem relay_error_not_counted :
    (handleConnection (some [1]) (fun _ => .ok ⟨0, true, some [1]⟩) true
        [⟨[2], false, .err 0⟩] []).exit = .relayed 0 0 ∧
    (handleConnection (some [1]) (fun _ => .ok ⟨0, true, some [1]⟩) true
        [⟨[2], false, .err 0⟩] []).connErrorsDelta = 0 := by
  decide

/-- Claim C6 amended: the ConnErrors counter is incremented (by one)
exactly when the flow ends before the relay starts — on an initial-read
failure, an acquire failure, or a forward-response write failure; relay
I/O failures never increment it. -/
theorem connErrors_pre_relay_only (initRead : Option (List Nat))
    (gets : Nat → Except Unit ConnModel) (forwardOk : Bool)
    (outEvents inEvents : List RWEvent) :
    ((handleConnection initRead gets forwardOk outEvents inEvents).connErrorsDelta = 0
      ↔ ∃ bo bi, (handleConnection initRead gets forwardOk outEvents inEvents).exit
          = .relayed bo bi) := by
  cases initRead with
  | none => simp [handleConnection]
  | some bs =>
    by_cases hb : bs.length = 0
    · simp [handleConnection, hb]
    · cases hacq : (acquireTunnel bs gets).outcome with
      | getErr => simp [handleConnection, hb, hacq]
      | allStale => simp [handleConnection, hb, hacq]
      | ok c fr =>
        cases forwardOk with
        | false => simp [handleConnection, hb, hacq]
        | true => simp [handleConnection, hb, hacq]

/-- Witness for the amended C6: a fully successful flow has ConnErrors
delta 0 and a relayed exit. -/
theorem connErrors_pre_relay_only_witness :
    ((handleConnection (some [1]) (fun _ => .ok ⟨0, true, some [1]⟩) true
        [⟨[2], false, .ok⟩] []).connErrorsDelta = 0
      ↔ ∃ bo bi, (handleConnection (some [1]) (fun _ => .ok ⟨0, true, some [1]⟩) true
          [⟨[2], false, .ok⟩] []).exit = .relayed bo bi) :=
  connErrors_pre_relay_only (some [1]) (fun _ => .ok ⟨0, true, some [1]⟩) true
    [⟨[2], false, .ok⟩] []

/-- Claim C5 is false on the code: Stats.Snapshot computes the hit rate as
a percentage — float64(hits) / float64(hits+misses) * 100 — not as the
plain ratio hits / (hits + misses).  With one hit and one miss the
snapshot reports 50, not 1/2. -/
theorem snapshot_hitRate_counterexample :
    (snapshot ⟨1, 1, 0, 0, 0, 0, 0, 0, 0, 0⟩).poolHitRate
      ≠ (1 : ℚ) / (1 + 1) := by
  norm_num [snapshot]

/-- Claim C5 amended: Snapshot returns a hit rate equal to
hits / (hits + misses) * 100 (a percentage), and 0 when hits + misses is
0; and for each histogram an average equal to sum / count (truncating
integer division of nanosecond totals), and 0 when count is 0. -/
theorem snapshot_derived_fields (s : StatsState) :
    ((s.poolHits + s.poolMisses = 0 → (snapshot s).poolHitRate = 0) ∧
     (0 < s.poolHits + s.poolMisses →
        (snapshot s).poolHitRate
          = (s.poolHits : ℚ) / ((s.poolHits : ℚ) + (s.poolMisses : ℚ)) * 100)) ∧
    ((s.poolWaitCount = 0 → (snapshot s).poolAvgWait = 0) ∧
     (0 < s.poolWaitCount →
        (snapshot s).poolAvgWait = s.poolWaitTime / s.poolWaitCount)) ∧
    ((s.connectTimeCount = 0 → (snapshot s).avgConnectTime = 0) ∧
     (0 < s.connectTimeCount →
        (snapshot s).avgConnectTime = s.connectTimeTotal / s.connectTimeCount)) ∧
    ((s.connLifetimeCount = 0 → (snapshot s).avgConnLifetime = 0) ∧
     (0 < s.connLifetimeCount →
        (snapshot s).avgConnLifetime = s.connLifetimeTotal / s.connLifetimeCount)) ∧
    ((s.poolAgeCount = 0 → (snapshot s).avgPoolAge = 0) ∧
     (0 < s.poolAgeCount →
        (snapshot s).avgPoolAge = s.poolAgeTotal / s.poolAgeCount)) := by
  refine ⟨⟨?_, ?_⟩, ⟨?_, ?_⟩, ⟨?_, ?_⟩, ⟨?_, ?_⟩, ⟨?_, ?_⟩⟩ <;> intro h <;>
    simp [snapshot, h, Nat.not_lt_of_lt, Nat.lt_irrefl]

/-- Witness for the amended C5: concrete counters exercise both the
populated and the empty branches. -/
theorem snapshot_derived_fields_witness :
    (snapshot ⟨1, 3, 10, 2, 9, 3, 0, 0, 7, 0⟩).poolHitRate = 25 ∧
    (snapshot ⟨1, 3, 10, 2, 9, 3, 0, 0, 7, 0⟩).poolAvgWait = 5 ∧
    (snapshot ⟨1, 3, 10, 2, 9, 3, 0, 0, 7, 0⟩).avgConnectTime = 3 ∧
    (snapshot ⟨1, 3, 10, 2, 9, 3, 0, 0, 7, 0⟩).avgConnLifetime = 0 ∧
    (snapshot ⟨1, 3, 10, 2, 9, 3, 0, 0, 7, 0⟩).avgPoolAge = 0 := by
  have h := snapshot_derived_fields ⟨1, 3, 10, 2, 9, 3, 0, 0, 7, 0⟩
  refine ⟨?_, ?_, ?_, ?_, ?_⟩
  · have h2 := h.1.2 (by norm_num)
    rw [h2]; norm_num
  · have h2 := h.2.1.2 (by norm_num)
    rw [h2]; decide
  · have h2 := h.2.2.1.2 (by norm_num)
    rw [h2]; decide
  · exact h.2.2.2.1.1 rfl
  · exact h.2.2.2.2.1 rfl

/-- Claim C1 is false on the code: ConnPool.Get never consults the
stopped flag or the pool context, only the caller's ctx.  After Stop has
drained the queue, a Get with a live caller context falls through to the
miss path and, when the factory succeeds, returns a usable fresh
connection instead of failing. -/
theorem stop_then_get_succeeds :
    (poolStop ⟨false, [(0, 5)]⟩).state.stopped = true ∧
    (poolStop ⟨false, [(0, 5)]⟩).state.queue = [] ∧
    (connPoolGet 10 false [] (poolStop ⟨false, [(0, 5)]⟩).state.queue
        (.ok 7)).outcome = .ok false 0 7 := by
  decide

/-- Claim C1 amended: after Stop returns, the ready queue has been
drained, so no subsequent Get can return a pooled (from_pool = true)
connection; but Get does not check the shutdown flag, so with a cancelled
caller context it returns the cancellation error, while with a live
caller context it simply mirrors the factory: it returns a fresh
connection when the factory succeeds and fails only when the factory
fails. -/
theorem get_after_stop (p : PoolCtl) (ttl : Nat) (ctxDone : Bool)
    (sched : List Bool) (factory : Except Unit Nat) :
    (∀ age c,
        (connPoolGet ttl ctxDone sched (poolStop p).state.queue factory).outcome
          ≠ .ok true age c) ∧
    (ctxDone = true →
        (connPoolGet ttl ctxDone sched (poolStop p).state.queue factory).outcome
          = .ctxErr) ∧
    (∀ c, ctxDone = false → factory = .ok c →
        (connPoolGet ttl ctxDone sched (poolStop p).state.queue factory).outcome
          = .ok false 0 c) ∧
    (∀ e, ctxDone = false → factory = .error e →
        (connPoolGet ttl ctxDone sched (poolStop p).state.queue factory).outcome
          = .factoryErr) := by
  cases ctxDone <;> cases factory <;> simp [poolStop, connPoolGet]

/-- Witness for the amended C1: a Get after Stop on a concrete pool with a
live context and a succeeding factory returns the fresh connection. -/
theorem get_after_stop_witness :
    (connPoolGet 10 false [] (poolStop ⟨false, [(3, 1)]⟩).state.queue
        (.ok 7)).outcome = .ok false 0 7 :=
  (get_after_stop ⟨false, [(3, 1)]⟩ 10 false [] (.ok 7)).2.2.1 7 rfl rfl

/-- Witness for the amended C4 at a concrete reachable state. -/
theorem hits_misses_accounting_witness :
    (⟨0, 0, 0, 0, 0, 1, 0, 0, 1⟩ : PoolSt).hits
        + (⟨0, 0, 0, 0, 0, 1, 0, 0, 1⟩ : PoolSt).misses
      = (⟨0, 0, 0, 0, 0, 1, 0, 0, 1⟩ : PoolSt).getSuccesses
        + (⟨0, 0, 0, 0, 0, 1, 0, 0, 1⟩ : PoolSt).getFactoryFailures :=
  hits_misses_accounting (Reachable.step Reachable.init (PoolStep.getMissFail PoolInit))

end ShadowTun
